import Mathlib

/-!
Verification of the Expense Ledger Core of src/ExpenseScreen.js.

The screen's testable core is embedded shallowly:

* expense rows are `Row` (amounts as exact rationals, dates as strings);
* the JavaScript `Date` arithmetic used by `getTodayDate` / `getWeekStart` /
  `getMonthStart` is modelled by a proleptic-Gregorian civil date `CivilDate`
  together with the standard civil-from-days / days-from-civil conversions
  (`Date.setDate` with roll-over is exactly day-number arithmetic, and
  `getDay` is the day-number weekday with Sunday = 0).  All conversions are
  modelled in one fixed timezone, in which `toISOString().split("T")[0]` of a
  local midnight is the civil date itself;
* `parseFloat` is modelled as the longest decimal-literal prefix parse
  returning `Option Rat` (`none` models `NaN`; `Infinity` literals, which no
  claim touches, are not modelled);
* store interaction is modelled by an explicit `writeResult : Option (List Row)`
  argument: `none` models the store call rejecting (the `catch` branch runs),
  `some dbRows` models a successful write after which the table holds `dbRows`
  and `loadExpenses` re-reads it.
-/

namespace ExpenseScreen

/-- One persisted expense row, the shape produced by
`SELECT * FROM expenses` in src/ExpenseScreen.js. -/
structure Row where
  id : Int
  amount : Rat
  category : String
  note : Option String
  date : String
  deriving DecidableEq, Repr

/-- A civil (proleptic Gregorian) calendar date, the model of the
year/month/day components of a JavaScript `Date` value.  `month` is 1-12. -/
structure CivilDate where
  year : Int
  month : Int
  day : Int
  deriving DecidableEq, Repr

/-- Day number of a civil date, with day 0 = 1970-01-01 (the count of days
since the Unix epoch, the quantity a JavaScript `Date` stores).  The inner
divisions only ever see non-negative operands. -/
def daysFromCivil (c : CivilDate) : Int :=
  let y : Int := if c.month ≤ 2 then c.year - 1 else c.year
  let era : Int := Int.fdiv y 400
  let yoe : Int := y - era * 400
  let mp : Int := if 2 < c.month then c.month - 3 else c.month + 9
  let doy : Int := (153 * mp + 2) / 5 + c.day - 1
  let doe : Int := yoe * 365 + yoe / 4 - yoe / 100 + doy
  era * 146097 + doe - 719468

/-- Civil date of a day number (inverse of `daysFromCivil`), modelling how a
JavaScript `Date` renders its stored day count back as year/month/day. -/
def civilFromDays (z0 : Int) : CivilDate :=
  let z := z0 + 719468
  let era := Int.fdiv z 146097
  let doe := Int.fmod z 146097
  let yoe := (doe - doe / 1460 + doe / 36524 - doe / 146096) / 365
  let y := yoe + era * 400
  let doy := doe - (365 * yoe + yoe / 4 - yoe / 100)
  let mp := (5 * doy + 2) / 153
  let d := doy - (153 * mp + 2) / 5 + 1
  let m := if mp < 10 then mp + 3 else mp - 9
  { year := if m ≤ 2 then y + 1 else y, month := m, day := d }

/-- Weekday of a day number, Sunday = 0 .. Saturday = 6, the model of
JavaScript `Date.prototype.getDay` (day 0, 1970-01-01, was a Thursday);
`%` on `Int` is `Int.emod`, so the result is always in `0..6`. -/
def dayOfWeek (z : Int) : Int :=
  (z + 4) % 7

/-- Day number of the most recent Sunday at or before day `z`: the model of
the arithmetic `diff = today.getDate() - today.getDay(); today.setDate(diff)`
in `getWeekStart` (`setDate` with a non-positive argument rolls into the
previous month, which on day numbers is plain subtraction). -/
def sundayOnOrBefore (z : Int) : Int :=
  z - dayOfWeek z

/-- Left-pad the decimal representation of a non-negative integer with zeros
to the given width, as `toISOString` does for date components. -/
def padNum (w : Nat) (n : Int) : String :=
  let s := Nat.repr n.toNat
  String.mk (List.replicate (w - s.length) '0') ++ s

/-- Render a civil date as the zero-padded `YYYY-MM-DD` string that
`toISOString().split("T")[0]` produces. -/
def dateToString (c : CivilDate) : String :=
  padNum 4 c.year ++ "-" ++ padNum 2 c.month ++ "-" ++ padNum 2 c.day

/-- Model of `getTodayDate` (src lines 38-41): today's date in `YYYY-MM-DD`
form, with the current moment abstracted as the civil date `now`. -/
def getTodayDate (now : CivilDate) : String :=
  dateToString now

/-- Model of `getWeekStart` (src lines 44-51): the date string of the start
(Sunday) of the week containing `today`. -/
def getWeekStart (today : CivilDate) : String :=
  dateToString (civilFromDays (sundayOnOrBefore (daysFromCivil today)))

/-- Model of `getMonthStart` (src lines 54-58): the date string of the first
day of the month containing `today` (`new Date(y, m, 1)`). -/
def getMonthStart (today : CivilDate) : String :=
  dateToString { year := today.year, month := today.month, day := 1 }

/-- The filter state of the screen: one of `"all"`, `"week"`, `"month"`. -/
inductive FilterMode where
  | all
  | week
  | month
  deriving DecidableEq, Repr

/-- Model of `applyFilter` (src lines 72-85): derive the filtered subset of
`expenseList`.  JavaScript `expense.date >= weekStart` is string comparison,
i.e. lexicographic `≤` of the boundary against the row's date. -/
def applyFilter (expenseList : List Row) (filterType : FilterMode)
    (today : CivilDate) : List Row :=
  match filterType with
  | .all => expenseList
  | .week => expenseList.filter (fun e => decide (getWeekStart today ≤ e.date))
  | .month => expenseList.filter (fun e => decide (getMonthStart today ≤ e.date))

/-- Numeric value of a list of decimal digit characters. -/
def digitsToNat (ds : List Char) : Nat :=
  ds.foldl (fun n c => 10 * n + (c.toNat - 48)) 0

/-- Value of the optional exponent part (`e`/`E`, optional sign, digits) at
the head of `cs`; `0` when no well-formed exponent follows, since `parseFloat`
then keeps only the mantissa prefix. -/
def expValue (cs : List Char) : Int :=
  match cs with
  | [] => 0
  | c :: rest =>
    if c = 'e' ∨ c = 'E' then
      match rest with
      | '-' :: r => if r.takeWhile Char.isDigit = [] then 0
                    else -(digitsToNat (r.takeWhile Char.isDigit) : Int)
      | '+' :: r => if r.takeWhile Char.isDigit = [] then 0
                    else (digitsToNat (r.takeWhile Char.isDigit) : Int)
      | r => if r.takeWhile Char.isDigit = [] then 0
             else (digitsToNat (r.takeWhile Char.isDigit) : Int)
    else 0

/-- Ten to an integer power, as a rational. -/
def pow10 (e : Int) : Rat :=
  if 0 ≤ e then (10 : Rat) ^ e.toNat else 1 / (10 : Rat) ^ (-e).toNat

/-- Model of JavaScript `parseFloat`: skip leading whitespace, then read the
longest decimal-literal prefix (optional sign, integer digits, optional
fraction, optional exponent); `none` models `NaN` (no digits at all).
Trailing garbage after the literal is ignored, e.g. `"12abc"` parses to `12`. -/
def parseFloat (s : String) : Option Rat :=
  let cs0 := s.data.dropWhile Char.isWhitespace
  let sign : Rat := match cs0 with
    | '-' :: _ => -1
    | _ => 1
  let cs1 := match cs0 with
    | '-' :: rest => rest
    | '+' :: rest => rest
    | rest => rest
  let intDs := cs1.takeWhile Char.isDigit
  let cs2 := cs1.dropWhile Char.isDigit
  let fracDs := match cs2 with
    | '.' :: rest => rest.takeWhile Char.isDigit
    | _ => []
  let cs3 := match cs2 with
    | '.' :: rest => rest.dropWhile Char.isDigit
    | rest => rest
  if intDs = [] ∧ fracDs = [] then none
  else
    some (sign * ((digitsToNat intDs : Rat) +
          (digitsToNat fracDs : Rat) / (10 : Rat) ^ fracDs.length) *
          pow10 (expValue cs3))

/-- Model of JavaScript `String.prototype.trim`: drop whitespace from both
ends of the string (defined structurally over the character list so that it
evaluates on concrete inputs). -/
def trimString (s : String) : String :=
  String.mk (((s.data.dropWhile Char.isWhitespace).reverse.dropWhile
      Char.isWhitespace).reverse)

/-- Outcome of the validation-and-payload part of `addExpense` / `saveEdit`:
either one of the two validation failures (no store call happens), or the
field values the store call will receive. -/
inductive Validated where
  | invalidAmount
  | missingCategory
  | ok (amount : Rat) (category : String) (note : Option String) (date : String)
  deriving DecidableEq, Repr

/-- The alert title the screen shows for a validation failure (`Alert.alert`
in src lines 107 and 115), `none` when validation passes. -/
def alertTitle : Validated → Option String
  | .invalidAmount => some "Invalid Amount"
  | .missingCategory => some "Category Required"
  | .ok _ _ _ _ => none

/-- The store calls the add path issues for a validation outcome: none on a
validation failure, exactly the one INSERT otherwise. -/
inductive StoreCall where
  | insert (amount : Rat) (category : String) (note : Option String) (date : String)
  deriving DecidableEq, Repr

/-- Store calls made by `addExpense` given its validation outcome. -/
def addStoreCalls : Validated → List StoreCall
  | .ok a c n d => [StoreCall.insert a c n d]
  | _ => []

/-- Model of the validation and row-assembly part of `addExpense`
(src lines 103-126): `parseFloat` the amount and reject non-positive or `NaN`
("Invalid Amount"); trim the category and reject empty ("Category Required");
store the trimmed note or null when empty; use the supplied date, or today's
date when the date field is empty (`date || getTodayDate()`). -/
def addExpense (amount category note date today : String) : Validated :=
  match parseFloat amount with
  | none => .invalidAmount
  | some amountNumber =>
    if amountNumber ≤ 0 then .invalidAmount
    else
      let trimmedCategory := trimString category
      let trimmedNote := trimString note
      if trimmedCategory = "" then .missingCategory
      else
        .ok amountNumber trimmedCategory
          (if trimmedNote = "" then none else some trimmedNote)
          (if date = "" then today else date)

/-- Model of the validation and row-assembly part of `saveEdit`
(src lines 159-183): the same amount/category validation as `addExpense`,
note trimmed to null-if-empty, and the edited date used verbatim (no
defaulting and no format check). -/
def saveEdit (editAmount editCategory editNote editDate : String) : Validated :=
  match parseFloat editAmount with
  | none => .invalidAmount
  | some amountNumber =>
    if amountNumber ≤ 0 then .invalidAmount
    else
      let trimmedCategory := trimString editCategory
      if trimmedCategory = "" then .missingCategory
      else
        .ok amountNumber trimmedCategory
          (if trimString editNote = "" then none else some (trimString editNote))
          editDate

/-- The `date` column value a validation outcome would persist, `none` when
validation failed and nothing is persisted. -/
def persistedDate : Validated → Option String
  | .ok _ _ _ d => some d
  | _ => none

/-- Add `a` to the entry of key `c` of the insertion-ordered association list
`m`, appending a new entry when the key is absent: the model of
`if (!categoryMap[cat]) categoryMap[cat] = 0; categoryMap[cat] += amount`
on a plain object (a falsy stored total of `0` is reset to `0` and then added
to, which coincides with plain addition). -/
def bump (m : List (String × Rat)) (c : String) (a : Rat) : List (String × Rat) :=
  match m with
  | [] => [(c, a)]
  | p :: rest => if p.1 = c then (p.1, p.2 + a) :: rest else p :: bump rest c a

/-- Model of `calculateTotals` (src lines 87-101): the overall total (a
`reduce` with initial value 0) and the per-category totals (an
insertion-ordered map built by `bump`). -/
def calculateTotals (expenseList : List Row) : Rat × List (String × Rat) :=
  (expenseList.foldl (fun sum e => sum + e.amount) 0,
   expenseList.foldl (fun m e => bump m e.category e.amount) [])

/-- Lookup in an insertion-ordered association list (property access on the
`categoryMap` object). -/
def findVal (m : List (String × Rat)) (c : String) : Option Rat :=
  match m with
  | [] => none
  | p :: rest => if p.1 = c then some p.2 else findVal rest c

/-- Sum of the amounts of the rows of a given category: the reference value
for a `categoryMap` entry. -/
def catSum (rows : List Row) (c : String) : Rat :=
  ((rows.filter (fun r => decide (r.category = c))).map Row.amount).sum

/-- The `ORDER BY date DESC, id DESC` ordering of the load query: a row comes
no later than another when its date is larger, or dates tie and its id is no
smaller. -/
def rowLe (r s : Row) : Prop :=
  s.date < r.date ∨ (s.date = r.date ∧ s.id ≤ r.id)

instance : DecidableRel rowLe :=
  fun r s => inferInstanceAs (Decidable (s.date < r.date ∨ (s.date = r.date ∧ s.id ≤ r.id)))

instance : IsTrans Row rowLe where
  trans a b c hab hbc := by
    rcases hab with h1 | ⟨h1, h1i⟩ <;> rcases hbc with h2 | ⟨h2, h2i⟩
    · exact Or.inl (lt_trans h2 h1)
    · exact Or.inl (h2 ▸ h1)
    · exact Or.inl (h1 ▸ h2)
    · exact Or.inr ⟨h2.trans h1, le_trans h2i h1i⟩

instance : IsTotal Row rowLe where
  total a b := by
    rcases lt_trichotomy a.date b.date with h | h | h
    · exact Or.inr (Or.inl h)
    · rcases le_total a.id b.id with hi | hi
      · exact Or.inr (Or.inr ⟨h, hi⟩)
      · exact Or.inl (Or.inr ⟨h.symm, hi⟩)
    · exact Or.inl (Or.inl h)

/-- Sort rows the way `SELECT * FROM expenses ORDER BY date DESC, id DESC`
returns them. -/
def sortRows (rows : List Row) : List Row :=
  List.insertionSort rowLe rows

/-- Model of `loadExpenses` (src lines 60-70): fetch every row of the table
(contents `dbRows`) in query order; the result replaces the in-memory set. -/
def loadExpenses (dbRows : List Row) : List Row :=
  sortRows dbRows

/-- The user-visible outcome of one add/update/delete attempt: a validation
alert, the generic store-failure alert of the `catch` branch, or success. -/
inductive Outcome where
  | invalidAmount
  | missingCategory
  | storeError
  | success
  deriving DecidableEq, Repr

/-- Model of the full `addExpense` flow (src lines 103-138): validate, and
only on success issue the INSERT; `writeResult = none` means the store call
rejected, so the `catch` branch reports the failure and the in-memory set
`mem` is untouched; on success `loadExpenses` re-reads the table and replaces
`mem`. -/
def runAdd (amount category note date today : String)
    (writeResult : Option (List Row)) (mem : List Row) : List Row × Outcome :=
  match addExpense amount category note date today with
  | .invalidAmount => (mem, .invalidAmount)
  | .missingCategory => (mem, .missingCategory)
  | .ok _ _ _ _ =>
    match writeResult with
    | none => (mem, .storeError)
    | some dbRows => (loadExpenses dbRows, .success)

/-- Model of the full `deleteExpense` flow (src lines 140-148): issue the
DELETE; on rejection the `catch` branch reports the failure and `mem` is
untouched; on success the table is re-read. -/
def deleteExpense (id : Int) (writeResult : Option (List Row))
    (mem : List Row) : List Row × Outcome :=
  match writeResult with
  | none => (mem, .storeError)
  | some dbRows => (loadExpenses dbRows, .success)

/-- Model of the full `saveEdit` flow (src lines 159-192): validate, and only
on success issue the UPDATE; rejection is caught and leaves `mem` untouched;
success re-reads the table. -/
def runUpdate (editAmount editCategory editNote editDate : String) (id : Int)
    (writeResult : Option (List Row)) (mem : List Row) : List Row × Outcome :=
  match saveEdit editAmount editCategory editNote editDate with
  | .invalidAmount => (mem, .invalidAmount)
  | .missingCategory => (mem, .missingCategory)
  | .ok _ _ _ _ =>
    match writeResult with
    | none => (mem, .storeError)
    | some dbRows => (loadExpenses dbRows, .success)

/-- The five-column layout `setup` creates
(`id, amount, category, note, date`). -/
def fiveCols : List String :=
  ["id", "amount", "category", "note", "date"]

/-- Effect of `ALTER TABLE expenses ADD COLUMN date TEXT` on the rows: every
existing row's new `date` cell is NULL. -/
def alterAddDate (dates : List (Option String)) : List (Option String) :=
  dates.map (fun _ => none)

/-- Effect of `UPDATE expenses SET date = ? WHERE date IS NULL`: rows whose
date is unset get `today`, others keep their value. -/
def backfillDates (today : String) (dates : List (Option String)) :
    List (Option String) :=
  dates.map (fun d => match d with | none => some today | some s => some s)

/-- Model of the schema-reconciliation part of `setup` (src lines 220-247):
given the existing column list (`PRAGMA table_info`, empty when the table
does not exist) and the `date` cell of each existing row, return the column
list and date cells after reconciliation.  Table present without `date`:
add the column, then backfill NULL dates with today.  Table absent: create
the five-column table, no rows.  Otherwise: change nothing. -/
def setup (cols : List String) (dates : List (Option String)) (today : String) :
    List String × List (Option String) :=
  if "date" ∉ cols ∧ cols ≠ [] then
    (cols ++ ["date"], backfillDates today (alterAddDate dates))
  else if cols = [] then
    (fiveCols, [])
  else
    (cols, dates)

example : parseFloat "12abc" = some 12 := by with_unfolding_all decide
example : parseFloat "-3.5" = some (-7/2) := by with_unfolding_all decide
example : parseFloat "abc" = none := by with_unfolding_all decide
example : parseFloat ".5e1" = some 5 := by with_unfolding_all decide
example : parseFloat "" = none := by with_unfolding_all decide
example : parseFloat "  2.50" = some (5/2) := by with_unfolding_all decide
example : parseFloat "1e" = some 1 := by with_unfolding_all decide
example : daysFromCivil { year := 1970, month := 1, day := 1 } = 0 := by decide
example : civilFromDays 0 = { year := 1970, month := 1, day := 1 } := by decide
example : dateToString { year := 2024, month := 1, day := 5 } = "2024-01-05" := rfl
example : dayOfWeek (daysFromCivil { year := 2024, month := 1, day := 16 }) = 2 := by decide
example :
    getWeekStart { year := 2024, month := 1, day := 16 } = "2024-01-14" := by decide

/-- Claim C1: `addExpense` validates before any store call.  An amount that
does not parse to a positive number yields the "invalid amount" failure with
no store call; a category that is empty after trimming (when the amount is
valid, which is checked first) yields the "missing category" failure with no
store call; the two failure alerts are distinct. -/
theorem c1_add_validates_before_store (amount category note date today : String) :
    (parseFloat amount = none →
      addExpense amount category note date today = .invalidAmount ∧
      addStoreCalls (addExpense amount category note date today) = []) ∧
    (∀ a : Rat, parseFloat amount = some a → a ≤ 0 →
      addExpense amount category note date today = .invalidAmount ∧
      addStoreCalls (addExpense amount category note date today) = []) ∧
    (∀ a : Rat, parseFloat amount = some a → 0 < a → trimString category = "" →
      addExpense amount category note date today = .missingCategory ∧
      addStoreCalls (addExpense amount category note date today) = []) ∧
    alertTitle .invalidAmount ≠ alertTitle .missingCategory := by
  refine ⟨?_, ?_, ?_, by decide⟩
  · intro h
    simp [addExpense, h, addStoreCalls]
  · intro a h ha
    simp [addExpense, h, ha, addStoreCalls]
  · intro a h ha hc
    simp [addExpense, h, not_le.mpr ha, hc, addStoreCalls]

/-- Concrete instances of claim C1: a non-numeric amount, a non-positive
amount, and a whitespace-only category are each rejected with the expected
failure. -/
theorem c1_witness :
    addExpense "abc" "Food" "" "" "2024-05-01" = .invalidAmount ∧
    addExpense "-5" "Food" "" "" "2024-05-01" = .invalidAmount ∧
    addExpense "5" "   " "hi" "" "2024-05-01" = .missingCategory :=
  ⟨((c1_add_validates_before_store "abc" "Food" "" "" "2024-05-01").1
      (by with_unfolding_all decide)).1,
   ((c1_add_validates_before_store "-5" "Food" "" "" "2024-05-01").2.1 (-5)
      (by with_unfolding_all decide) (by with_unfolding_all decide)).1,
   ((c1_add_validates_before_store "5" "   " "hi" "" "2024-05-01").2.2.1 5
      (by with_unfolding_all decide) (by with_unfolding_all decide) (by decide)).1⟩

/-- Claim C4: schema reconciliation.  A table lacking the `date` column gets
the column appended and every row's date backfilled with today (so no row is
left with a null date); a missing table is created with the five-column
layout and no rows; a table that already has the column is untouched. -/
theorem c4_setup_reconciles (cols : List String) (dates : List (Option String))
    (today : String) :
    ("date" ∉ cols → cols ≠ [] →
      setup cols dates today = (cols ++ ["date"], dates.map (fun _ => some today)) ∧
      ∀ d ∈ (setup cols dates today).2, d ≠ none) ∧
    (cols = [] → setup cols dates today = (fiveCols, [])) ∧
    ("date" ∈ cols → setup cols dates today = (cols, dates)) := by
  refine ⟨?_, ?_, ?_⟩
  · intro h1 h2
    constructor
    · simp [setup, h1, h2, backfillDates, alterAddDate]
    · intro d hd
      simp [setup, h1, h2, backfillDates, alterAddDate] at hd
      rcases hd with ⟨x, hx, rfl⟩
      exact Option.some_ne_none _
  · intro h
    subst h
    simp [setup]
  · intro h
    have hne := List.ne_nil_of_mem h
    simp [setup, h, hne]

/-- Concrete instance of claim C4: a four-column table with three rows is
migrated to five columns with every date backfilled. -/
theorem c4_witness :
    setup ["id", "amount", "category", "note"] [none, none, none] "2024-05-01" =
      (["id", "amount", "category", "note", "date"],
       [some "2024-05-01", some "2024-05-01", some "2024-05-01"]) := by
  have h := ((c4_setup_reconciles ["id", "amount", "category", "note"]
      [none, none, none] "2024-05-01").1 (by decide) (by decide)).1
  simpa using h

/-- Claim C5: when the store call of an add, update, or delete fails
(`writeResult = none`), the failure is caught and reported as the generic
store-failure notice and the in-memory set `mem` is unchanged; `loadExpenses`
replaces `mem` only when the write succeeded. -/
theorem c5_store_failure_leaves_memory (amount category note date today
    eA eC eN eD : String) (id : Int) (mem : List Row) :
    ((runAdd amount category note date today none mem).1 = mem) ∧
    ((runUpdate eA eC eN eD id none mem).1 = mem) ∧
    (deleteExpense id none mem = (mem, .storeError)) ∧
    (∀ a c n d, addExpense amount category note date today = .ok a c n d →
      runAdd amount category note date today none mem = (mem, .storeError)) ∧
    (∀ a c n d, saveEdit eA eC eN eD = .ok a c n d →
      runUpdate eA eC eN eD id none mem = (mem, .storeError)) ∧
    (∀ dbRows a c n d, addExpense amount category note date today = .ok a c n d →
      runAdd amount category note date today (some dbRows) mem =
        (loadExpenses dbRows, .success)) := by
  refine ⟨?_, ?_, rfl, ?_, ?_, ?_⟩
  · cases h : addExpense amount category note date today <;> simp [runAdd, h]
  · cases h : saveEdit eA eC eN eD <;> simp [runUpdate, h]
  · intro a c n d h
    simp [runAdd, h]
  · intro a c n d h
    simp [runUpdate, h]
  · intro dbRows a c n d h
    simp [runAdd, h]

/-- Concrete instance of claim C5: a valid add whose INSERT is rejected
reports the store failure and leaves the in-memory set unchanged, while the
same add with a successful INSERT reloads from the table. -/
theorem c5_witness :
    runAdd "12.50" "Food" "" "" "2024-05-01" none [] = ([], .storeError) ∧
    runAdd "12.50" "Food" "" "" "2024-05-01" (some []) [] =
      (loadExpenses [], .success) := by
  have h : addExpense "12.50" "Food" "" "" "2024-05-01" =
      .ok (25/2) "Food" none "2024-05-01" := by with_unfolding_all decide
  exact ⟨(c5_store_failure_leaves_memory "12.50" "Food" "" "" "2024-05-01"
            "" "" "" "" 0 []).2.2.2.1 (25/2) "Food" none "2024-05-01" h,
         (c5_store_failure_leaves_memory "12.50" "Food" "" "" "2024-05-01"
            "" "" "" "" 0 []).2.2.2.2.2 [] (25/2) "Food" none "2024-05-01" h⟩

/-- Claim C6: a valid add with an empty date field persists today's date, in
the `YYYY-MM-DD` form produced by `getTodayDate`. -/
theorem c6_omitted_date_defaults_to_today (amount category note : String)
    (now : CivilDate) (a : Rat) :
    parseFloat amount = some a → 0 < a → trimString category ≠ "" →
    persistedDate (addExpense amount category note "" (getTodayDate now)) =
      some (getTodayDate now) := by
  intro h ha hc
  simp [addExpense, h, not_le.mpr ha, hc, persistedDate]

/-- Concrete instance of claim C6: adding `12.50 / Food` with no date on
2024-05-01 persists the date `"2024-05-01"`. -/
theorem c6_witness :
    persistedDate (addExpense "12.50" "Food" "" ""
        (getTodayDate { year := 2024, month := 5, day := 1 })) =
      some (getTodayDate { year := 2024, month := 5, day := 1 }) :=
  c6_omitted_date_defaults_to_today "12.50" "Food" ""
    { year := 2024, month := 5, day := 1 } (25/2)
    (by with_unfolding_all decide) (by with_unfolding_all decide) (by decide)

/-- Claim C7: the `all` filter returns the record set unchanged, and the
`week` and `month` filters each select a subset of it. -/
theorem c7_filters_are_subsets_of_all (rows : List Row) (today : CivilDate) :
    applyFilter rows .all today = rows ∧
    applyFilter rows .week today ⊆ rows ∧
    applyFilter rows .month today ⊆ rows :=
  ⟨rfl, (List.filter_sublist rows).subset, (List.filter_sublist rows).subset⟩

/-- Claim C9: neither add nor update checks the format of a supplied date
string: a non-empty date given to `addExpense`, and any date given to
`saveEdit`, is persisted verbatim. -/
theorem c9_supplied_date_persisted_verbatim (amount category note date today
    eA eC eN eD : String) (a b : Rat) :
    (parseFloat amount = some a → 0 < a → trimString category ≠ "" → date ≠ "" →
      persistedDate (addExpense amount category note date today) = some date) ∧
    (parseFloat eA = some b → 0 < b → trimString eC ≠ "" →
      persistedDate (saveEdit eA eC eN eD) = some eD) := by
  constructor
  · intro h ha hc hd
    simp [addExpense, h, not_le.mpr ha, hc, hd, persistedDate]
  · intro h hb hc
    simp [saveEdit, h, not_le.mpr hb, hc, persistedDate]

/-- Concrete instance of claim C9: the non-ISO date strings `"2024-1-5"` and
`"31/12/2024"` are persisted exactly as supplied. -/
theorem c9_witness :
    persistedDate (addExpense "10" "Food" "" "2024-1-5" "2024-05-01") =
      some "2024-1-5" ∧
    persistedDate (saveEdit "10" "Food" "" "31/12/2024") = some "31/12/2024" :=
  ⟨(c9_supplied_date_persisted_verbatim "10" "Food" "" "2024-1-5" "2024-05-01"
      "10" "Food" "" "31/12/2024" 10 10).1 (by with_unfolding_all decide)
      (by with_unfolding_all decide) (by decide) (by decide),
   (c9_supplied_date_persisted_verbatim "10" "Food" "" "2024-1-5" "2024-05-01"
      "10" "Food" "" "31/12/2024" 10 10).2 (by with_unfolding_all decide)
      (by with_unfolding_all decide) (by decide)⟩

/-- Claim C10: the amount string `"12abc"` is not a decimal numeral, yet it
is not rejected as an invalid amount: `parseFloat` keeps the numeric prefix
and a record with amount `12` is persisted. -/
theorem c10_numeric_prefix_accepted :
    parseFloat "12abc" = some 12 ∧
    addExpense "12abc" "Food" "" "" "2024-05-01" =
      Validated.ok 12 "Food" none "2024-05-01" ∧
    addExpense "12abc" "Food" "" "" "2024-05-01" ≠ Validated.invalidAmount := by
  refine ⟨by with_unfolding_all decide, by with_unfolding_all decide,
    by with_unfolding_all decide⟩

/-- Claim C2: the week filter selects exactly the records whose date string
is lexically at least the week-start string, and the week start is the most
recent Sunday at or before today: it falls on a Sunday, is at most today,
is within seven days of today, no later Sunday precedes today, and when
today is itself a Sunday the week start is today. -/
theorem c2_week_filter_starts_sunday (rows : List Row) (today : CivilDate) :
    (∀ r, r ∈ applyFilter rows .week today ↔
      r ∈ rows ∧ getWeekStart today ≤ r.date) ∧
    getWeekStart today =
      dateToString (civilFromDays (sundayOnOrBefore (daysFromCivil today))) ∧
    dayOfWeek (sundayOnOrBefore (daysFromCivil today)) = 0 ∧
    sundayOnOrBefore (daysFromCivil today) ≤ daysFromCivil today ∧
    daysFromCivil today - sundayOnOrBefore (daysFromCivil today) < 7 ∧
    (∀ s : Int, dayOfWeek s = 0 → s ≤ daysFromCivil today →
      s ≤ sundayOnOrBefore (daysFromCivil today)) ∧
    (dayOfWeek (daysFromCivil today) = 0 →
      sundayOnOrBefore (daysFromCivil today) = daysFromCivil today) := by
  refine ⟨?_, rfl, ?_, ?_, ?_, ?_, ?_⟩
  · intro r
    simp [applyFilter, List.mem_filter]
  · unfold sundayOnOrBefore dayOfWeek
    omega
  · unfold sundayOnOrBefore dayOfWeek
    omega
  · unfold sundayOnOrBefore dayOfWeek
    omega
  · intro s hs hle
    unfold sundayOnOrBefore dayOfWeek
    unfold dayOfWeek at hs
    omega
  · intro h
    unfold sundayOnOrBefore
    omega

/-- Concrete instance of claim C2: 2024-01-14 was a Sunday, and the week
start computed for it is that same day. -/
theorem c2_witness :
    sundayOnOrBefore (daysFromCivil { year := 2024, month := 1, day := 14 }) =
      daysFromCivil { year := 2024, month := 1, day := 14 } :=
  (c2_week_filter_starts_sunday [] { year := 2024, month := 1, day := 14
    }).2.2.2.2.2.2 (by decide)

/-- Claim C8: `loadExpenses` returns exactly the records of the store (a
permutation) arranged by date descending and, within equal dates, by id
descending, and the in-memory set becomes that sequence. -/
theorem c8_load_orders_date_desc_id_desc (dbRows : List Row) :
    List.Perm (loadExpenses dbRows) dbRows ∧
    List.Pairwise rowLe (loadExpenses dbRows) :=
  ⟨List.perm_insertionSort rowLe dbRows, List.sorted_insertionSort rowLe dbRows⟩

lemma foldl_add_amount (rows : List Row) (a : Rat) :
    rows.foldl (fun s e => s + e.amount) a = a + (rows.map Row.amount).sum := by
  induction rows generalizing a with
  | nil => simp
  | cons r rs ih => simp [ih, add_assoc]

lemma bump_snd_sum (m : List (String × Rat)) (c : String) (a : Rat) :
    ((bump m c a).map Prod.snd).sum = (m.map Prod.snd).sum + a := by
  induction m with
  | nil => simp [bump]
  | cons p rest ih =>
    by_cases h : p.1 = c
    · simp only [bump, if_pos h, List.map_cons, List.sum_cons]
      ring
    · simp only [bump, if_neg h, List.map_cons, List.sum_cons, ih]
      ring

lemma foldl_bump_snd_sum (rows : List Row) : ∀ m : List (String × Rat),
    (((rows.foldl (fun m e => bump m e.category e.amount) m)).map Prod.snd).sum =
      (m.map Prod.snd).sum + (rows.map Row.amount).sum := by
  induction rows with
  | nil => intro m; simp
  | cons r rs ih =>
    intro m
    simp only [List.foldl_cons, List.map_cons, List.sum_cons]
    rw [ih (bump m r.category r.amount), bump_snd_sum]
    ring

lemma findVal_bump (m : List (String × Rat)) (c : String) (a : Rat) (c' : String) :
    findVal (bump m c a) c' =
      if c' = c then some ((findVal m c').getD 0 + a) else findVal m c' := by
  induction m with
  | nil =>
    by_cases h : c' = c
    · subst h
      simp [bump, findVal]
    · have hcc : ¬ c = c' := fun hh => h hh.symm
      simp [bump, findVal, h, hcc]
  | cons p rest ih =>
    by_cases h1 : p.1 = c
    · by_cases h2 : c' = c
      · subst h2
        simp [bump, findVal, h1, if_pos h1]
      · have hp : ¬ p.1 = c' := fun hh => h2 ((hh.symm.trans h1))
        have hcc : ¬ c = c' := fun hh => h2 hh.symm
        simp [bump, findVal, h1, h2, hp, hcc]
    · by_cases h3 : p.1 = c'
      · have hcc : ¬ c' = c := fun hh => h1 (h3.trans hh)
        simp [bump, findVal, h1, h3, hcc]
      · simp [bump, findVal, h1, h3, ih]

lemma catSum_cons (r : Row) (rs : List Row) (c : String) :
    catSum (r :: rs) c =
      if r.category = c then r.amount + catSum rs c else catSum rs c := by
  by_cases h : r.category = c <;> simp [catSum, h]

lemma findVal_foldl_bump (rows : List Row) (c : String) :
    ∀ m : List (String × Rat),
    findVal (rows.foldl (fun m e => bump m e.category e.amount) m) c =
      if (findVal m c).isSome = true ∨ c ∈ rows.map Row.category then
        some ((findVal m c).getD 0 + catSum rows c)
      else none := by
  induction rows with
  | nil =>
    intro m
    cases h : findVal m c <;> simp [h, catSum]
  | cons r rs ih =>
    intro m
    simp only [List.foldl_cons]
    rw [ih (bump m r.category r.amount), findVal_bump, catSum_cons,
      List.map_cons]
    by_cases h : c = r.category
    · subst h
      simp [List.mem_cons, add_assoc]
    · have hnotc : ¬ r.category = c := fun hh => h hh.symm
      rw [if_neg h, if_neg hnotc]
      by_cases hmem : (findVal m c).isSome = true ∨ c ∈ rs.map Row.category
      · have hmemc : (findVal m c).isSome = true ∨
            c ∈ r.category :: List.map Row.category rs := by
          rcases hmem with hm | hm
          · exact Or.inl hm
          · exact Or.inr (List.mem_cons_of_mem _ hm)
        rw [if_pos hmem, if_pos hmemc]
      · have hmemc : ¬((findVal m c).isSome = true ∨
            c ∈ r.category :: List.map Row.category rs) := by
          intro hcon
          rcases hcon with hm | hm
          · exact hmem (Or.inl hm)
          · rcases List.mem_cons.mp hm with hm | hm
            · exact h hm
            · exact hmem (Or.inr hm)
        rw [if_neg hmem, if_neg hmemc]

/-- Claim C3: for every record set and filter, the sum of the values of the
per-category totals equals the overall total; the overall total is the
arithmetic sum of the amounts of the filtered subset (0 when empty); the
per-category map has an entry exactly for the categories present in the
subset, and each entry holds the sum of that category's amounts. -/
theorem c3_category_totals_sum_to_total (rows : List Row) (f : FilterMode)
    (today : CivilDate) :
    (((calculateTotals (applyFilter rows f today)).2.map Prod.snd).sum =
      (calculateTotals (applyFilter rows f today)).1) ∧
    ((calculateTotals (applyFilter rows f today)).1 =
      ((applyFilter rows f today).map Row.amount).sum) ∧
    (∀ c, (findVal (calculateTotals (applyFilter rows f today)).2 c).isSome = true ↔
      c ∈ (applyFilter rows f today).map Row.category) ∧
    (∀ c v, findVal (calculateTotals (applyFilter rows f today)).2 c = some v →
      v = catSum (applyFilter rows f today) c) := by
  generalize applyFilter rows f today = l
  have h2 : (calculateTotals l).2 =
      l.foldl (fun m e => bump m e.category e.amount) [] := rfl
  have h1 : (calculateTotals l).1 = l.foldl (fun s e => s + e.amount) 0 := rfl
  refine ⟨?_, ?_, ?_, ?_⟩
  · rw [h1, h2, foldl_bump_snd_sum l [], foldl_add_amount]
    simp
  · rw [h1, foldl_add_amount]
    simp
  · intro c
    rw [h2, findVal_foldl_bump l c []]
    by_cases h : c ∈ l.map Row.category <;> simp [findVal, h]
  · intro c v
    rw [h2, findVal_foldl_bump l c []]
    by_cases h : c ∈ l.map Row.category
    · rw [if_pos (Or.inr h)]
      intro hv
      rw [← Option.some.inj hv]
      simp [findVal]
    · have hcond : ¬((findVal ([] : List (String × Rat)) c).isSome = true ∨
          c ∈ l.map Row.category) := by
        simp [findVal, h]
      rw [if_neg hcond]
      intro hv
      exact absurd hv (by simp)

/-- Concrete instance of claim C3: in a three-row set with two `Food` rows of
amounts 5 and 3, the `Food` entry of the per-category totals is 8, the sum of
the `Food` amounts. -/
theorem c3_witness :
    (8 : Rat) = catSum (applyFilter
      [{ id := 1, amount := 5, category := "Food", note := none, date := "2024-01-10" },
       { id := 2, amount := 7, category := "Books", note := none, date := "2024-01-15" },
       { id := 3, amount := 3, category := "Food", note := none, date := "2024-01-16" }]
      .all { year := 2024, month := 1, day := 16 }) "Food" :=
  (c3_category_totals_sum_to_total
    [{ id := 1, amount := 5, category := "Food", note := none, date := "2024-01-10" },
     { id := 2, amount := 7, category := "Books", note := none, date := "2024-01-15" },
     { id := 3, amount := 3, category := "Food", note := none, date := "2024-01-16" }]
    .all { year := 2024, month := 1, day := 16 }).2.2.2 "Food" 8
    (by with_unfolding_all decide)

example :
    applyFilter
      [{ id := 1, amount := 25/2, category := "Food", note := none, date := "2024-01-10" },
       { id := 2, amount := 30, category := "Books", note := none, date := "2024-01-15" }]
      .week { year := 2024, month := 1, day := 16 } =
      [{ id := 2, amount := 30, category := "Books", note := none, date := "2024-01-15" }] := by
  with_unfolding_all decide

example :
    (calculateTotals (applyFilter
      [{ id := 1, amount := 25/2, category := "Food", note := none, date := "2024-01-10" },
       { id := 2, amount := 30, category := "Books", note := none, date := "2024-01-15" }]
      .week { year := 2024, month := 1, day := 16 })).1 = 30 := by
  with_unfolding_all decide

example :
    (calculateTotals (applyFilter
      [{ id := 1, amount := 25/2, category := "Food", note := none, date := "2024-01-10" },
       { id := 2, amount := 30, category := "Books", note := none, date := "2024-01-16" }]
      .all { year := 2024, month := 1, day := 16 })).1 = 85/2 := by
  with_unfolding_all decide

end ExpenseScreen
